import Mathlib

/-!
Verification of the call-routing decision core against its design document.

The JavaScript sources are shallowly embedded: JS numbers are modelled as
rationals (ℚ), with an extended type JsNum covering the Infinity/NaN values
that arise from division by zero; JS Map objects are modelled as association
lists with unique keys; thrown exceptions are modelled as Except values, a
TypeError (from indexing into undefined) being distinguished from
programmer-thrown Error objects.  Collaborators that the framework calls
(authentication, metric measurement, cost lookup, analytics logging) are
modelled as explicit inputs, since in the source they are stubs built on
Math.random or external services.
-/

namespace CallRouting

/-- Extended JS number: a finite rational, +Infinity, -Infinity or NaN.
Only arises from division by zero in the anomaly detector; ordinary
arithmetic stays in ℚ. -/
inductive JsNum where
  | fin (q : ℚ)
  | inf
  | negInf
  | nan
deriving DecidableEq

/-- JS addition on extended numbers (NaN absorbs; Infinity + -Infinity = NaN). -/
def jsAdd : JsNum → JsNum → JsNum
  | .nan, _ => .nan
  | _, .nan => .nan
  | .inf, .negInf => .nan
  | .negInf, .inf => .nan
  | .inf, _ => .inf
  | _, .inf => .inf
  | .negInf, _ => .negInf
  | _, .negInf => .negInf
  | .fin a, .fin b => .fin (a + b)

/-- JS multiplication of an extended number by a finite rational. -/
def jsMul : JsNum → ℚ → JsNum
  | .fin q, w => .fin (q * w)
  | .inf, w => if 0 < w then .inf else if w = 0 then .nan else .negInf
  | .negInf, w => if 0 < w then .negInf else if w = 0 then .nan else .inf
  | .nan, _ => .nan

/-- JS Math.min(1, x) (NaN propagates). -/
def jsMin1 : JsNum → JsNum
  | .fin q => .fin (min 1 q)
  | .inf => .fin 1
  | .negInf => .negInf
  | .nan => .nan

/-- JS comparison x < t against a finite rational (false on NaN). -/
def jsLtQ : JsNum → ℚ → Bool
  | .fin q, t => decide (q < t)
  | .inf, _ => false
  | .negInf, _ => true
  | .nan, _ => false

/-- JS comparison x > t against a finite rational (false on NaN). -/
def jsGtQ : JsNum → ℚ → Bool
  | .fin q, t => decide (q > t)
  | .inf, _ => true
  | .negInf, _ => false
  | .nan, _ => false

/-- Lookup in a JS Map modelled as an association list (first match). -/
def mapGet {β : Type} : List (String × β) → String → Option β
  | [], _ => none
  | (k, v) :: t, key => if k = key then some v else mapGet t key

/-- JS Map.set: replace the value at an existing key in place, otherwise
append the new entry (Map preserves insertion order). -/
def mapSet {β : Type} : List (String × β) → String → β → List (String × β)
  | [], key, v => [(key, v)]
  | (k, w) :: t, key, v => if k = key then (key, v) :: t else (k, w) :: mapSet t key v

/-- JS Map.delete: remove the entry at the key (keys are unique in a Map). -/
def mapDelete {β : Type} : List (String × β) → String → List (String × β)
  | [], _ => []
  | (k, w) :: t, key => if k = key then t else (k, w) :: mapDelete t key

/-- The Map invariant: all keys distinct. -/
def keysNodup {β : Type} (l : List (String × β)) : Prop :=
  (l.map Prod.fst).Nodup

/-! ## Dynamic Call Distribution (RouteScorer), src/config/system.js -/

/-- Per-route instantaneous measurements supplied to the scorer. -/
structure RouteMetrics where
  latency : ℚ
  load : ℚ
  reliability : ℚ
deriving DecidableEq

/-- DynamicCallDistribution.calculateRouteWeight: the α/β/γ-weighted score
with latency normalised against the fixed 200 ms ceiling.  The source
performs no validation of the metric ranges. -/
def calculateRouteWeight (metrics : RouteMetrics) : ℚ :=
  let normalizedLatency := 1 - (min metrics.latency 200) / 200
  (2/5) * normalizedLatency + (3/10) * (1 - metrics.load) + (3/10) * metrics.reliability

/-! ## Sorting

Array.prototype.sort with a numeric comparator is a stable sort; iteration
of a Map (Array.from(map.entries())) follows insertion order.  A stable
sort is modelled by insertion sort: an element is inserted in front of the
first later element it must strictly precede, so equal elements keep their
input order. -/

/-- Insert x in front of the first element y with `before x y`. -/
def insertSorted {α : Type} (before : α → α → Bool) (x : α) : List α → List α
  | [] => [x]
  | y :: ys => if before x y then x :: y :: ys else y :: insertSorted before x ys

/-- Stable sort by the given strict-or-equal precedence test. -/
def stableSort {α : Type} (before : α → α → Bool) : List α → List α
  | [] => []
  | x :: xs => insertSorted before x (stableSort before xs)

/-- Thrown JS exceptions: a TypeError from indexing into undefined, or an
Error object with a message. -/
inductive JsError where
  | typeError
  | thrown (msg : String)
deriving DecidableEq

/-- Result shape of DynamicCallDistribution.getOptimalRoute. -/
structure SelectedRoute where
  selectedRoute : String
  weight : ℚ
  metrics : RouteMetrics
deriving DecidableEq

/-- The weighted route list built and sorted (descending by weight, stable)
inside DynamicCallDistribution.getOptimalRoute.  The per-route metric
measurements (stubs on Math.random in the source) are an explicit input. -/
def rankByWeight (availableRoutes : List String)
    (metricsFor : String → RouteMetrics) : List (String × ℚ) :=
  stableSort (fun a b => decide (b.2 ≤ a.2))
    (availableRoutes.map fun r => (r, calculateRouteWeight (metricsFor r)))

/-- DynamicCallDistribution.getOptimalRoute: score all candidates, sort by
weight descending and take sortedRoutes[0].  On an empty candidate list the
source evaluates sortedRoutes[0][0] where sortedRoutes[0] is undefined,
which throws a TypeError — modelled as the typeError value. -/
def getOptimalRoute (availableRoutes : List String)
    (metricsFor : String → RouteMetrics) : Except JsError SelectedRoute :=
  match rankByWeight availableRoutes metricsFor with
  | [] => .error .typeError
  | (r, w) :: _ => .ok ⟨r, w, metricsFor r⟩

/-! ## Least-Cost Routing (CostEvaluator), src/src/core/lcr.js -/

/-- Route cost record: route.costs and route.weights arrays. -/
structure RouteCostInfo where
  costs : List ℚ
  weights : List ℚ
deriving DecidableEq

/-- The loop accumulating (weights[i] || 1) * routeCosts[i]: a weight that
is absent (index beyond the array) or equal to 0 is falsy in JS, so the
`|| 1` default replaces it with 1. -/
def weightedCost : List ℚ → List ℚ → ℚ
  | [], _ => 0
  | c :: cs, [] => 1 * c + weightedCost cs []
  | c :: cs, w :: ws => (if w = 0 then 1 else w) * c + weightedCost cs ws

/-- LeastCostRouting.calculateTotalCost: weighted component sum plus the
DELAY_PENALTY_FACTOR (λ = 0.2) times the delay. -/
def calculateTotalCost (route : RouteCostInfo) (delay : ℚ) : ℚ :=
  weightedCost route.costs route.weights + (1/5) * delay

/-- Modelled from the spec: the claim's cost formula Σ(w_i·c_i) + 0.2·d in
which only a weight omitted for a component (beyond the supplied list)
defaults to 1.0 — a supplied weight, zero included, is used as given.
Stated for comparison with calculateTotalCost. -/
def specWeightedCost : List ℚ → List ℚ → ℚ
  | [], _ => 0
  | c :: cs, [] => 1 * c + specWeightedCost cs []
  | c :: cs, w :: ws => w * c + specWeightedCost cs ws

/-- Modelled from the spec: total cost under the claim's formula. -/
def specTotalCost (costs weights : List ℚ) (delay : ℚ) : ℚ :=
  specWeightedCost costs weights + (1/5) * delay

/-- Result shape of LeastCostRouting.findOptimalRoute. -/
structure SelectedCost where
  selectedRoute : String
  totalCost : ℚ
deriving DecidableEq

/-- The cost list built and sorted (ascending by totalCost, stable) inside
LeastCostRouting.findOptimalRoute.  Cost data and delay measurement
(random stubs in the source) are explicit inputs. -/
def rankByCost (availableRoutes : List String)
    (costInfoFor : String → RouteCostInfo) (delayFor : String → ℚ) :
    List (String × ℚ) :=
  stableSort (fun a b => decide (a.2 ≤ b.2))
    (availableRoutes.map fun r =>
      (r, calculateTotalCost (costInfoFor r) (delayFor r)))

/-- LeastCostRouting.findOptimalRoute: cost all candidates, sort ascending
and take sortedRoutes[0]; on an empty candidate list the source throws a
TypeError exactly as getOptimalRoute does. -/
def findOptimalRoute (availableRoutes : List String)
    (costInfoFor : String → RouteCostInfo) (delayFor : String → ℚ) :
    Except JsError SelectedCost :=
  match rankByCost availableRoutes costInfoFor delayFor with
  | [] => .error .typeError
  | (r, c) :: _ => .ok ⟨r, c⟩

/-! ## Anomaly detection, src/src/monitoring/anomaly_detection.js -/

/-- Stored baseline for a metric (lastUpdated timestamp omitted). -/
structure Baseline where
  mean : ℚ
  stdDev : ℚ
deriving DecidableEq

/-- The anomalyThresholds table with the `|| 0.2` default for unlisted
metric names (every listed threshold is nonzero, so the falsy default
never shadows a table entry). -/
def anomalyThreshold (metricName : String) : ℚ :=
  if metricName = "callVolume" then 3/10
  else if metricName = "duration" then 1/4
  else if metricName = "failureRate" then 1/5
  else if metricName = "latency" then 3/20
  else 1/5

/-- Math.abs(value − mean) / mean under JS number semantics: division of a
positive numerator by zero gives Infinity, of zero by zero gives NaN. -/
def deviationOf (value mean : ℚ) : JsNum :=
  if mean = 0 then (if value = 0 then .nan else .inf)
  else .fin (|value - mean| / mean)

/-- The record built by detectAnomaly when a baseline exists (timestamp
omitted). -/
structure AnomalyReport where
  isAnomaly : Bool
  deviation : JsNum
  threshold : ℚ
  baselineMean : ℚ
  currentValue : ℚ
deriving DecidableEq

/-- detectAnomaly returns either the no-baseline record
({isAnomaly:false, reason:...}) or a full deviation report. -/
inductive DetectResult where
  | noBaseline
  | report (r : AnomalyReport)
deriving DecidableEq

/-- AnomalyDetectionSystem.detectAnomaly. -/
def detectAnomaly (baselineMetrics : List (String × Baseline))
    (metricName : String) (value : ℚ) : DetectResult :=
  match mapGet baselineMetrics metricName with
  | none => .noBaseline
  | some baseline =>
    let threshold := anomalyThreshold metricName
    let deviation := deviationOf value baseline.mean
    .report ⟨jsGtQ deviation threshold, deviation, threshold, baseline.mean, value⟩

/-- An entry pushed onto the anomalies array by processCallMetrics: the
type tag spread together with the detectAnomaly report. -/
structure Anomaly where
  type : String
  isAnomaly : Bool
  deviation : JsNum
  threshold : ℚ
  baselineMean : ℚ
  currentValue : ℚ
deriving DecidableEq

/-- The metrics object passed to processCallMetrics; a missing field is
none.  (JS distinguishes absent from 0 in the data, but the truthiness
test `if (metrics.field)` conflates them.) -/
structure CallMetricsInput where
  callVolume : Option ℚ
  avgDuration : Option ℚ
  failureRate : Option ℚ
deriving DecidableEq

/-- One `if (metrics.field) { detect; if anomalous push {type, ...} }`
block of processCallMetrics: a field that is absent or 0 is falsy and
skipped; a no-baseline result is never anomalous so never pushed. -/
def checkMetric (baselineMetrics : List (String × Baseline))
    (metricName typeName : String) (value : Option ℚ) : List Anomaly :=
  match value with
  | none => []
  | some v =>
    if v = 0 then []
    else
      match detectAnomaly baselineMetrics metricName v with
      | .noBaseline => []
      | .report r =>
        if r.isAnomaly then
          [⟨typeName, r.isAnomaly, r.deviation, r.threshold, r.baselineMean,
            r.currentValue⟩]
        else []

/-- AnomalyDetectionSystem.processCallMetrics: checks callVolume (metric
and type 'callVolume'), avgDuration (metric and type 'duration') and
failureRate, in that order. -/
def processCallMetrics (baselineMetrics : List (String × Baseline))
    (metrics : CallMetricsInput) : List Anomaly :=
  checkMetric baselineMetrics "callVolume" "callVolume" metrics.callVolume ++
  checkMetric baselineMetrics "duration" "duration" metrics.avgDuration ++
  checkMetric baselineMetrics "failureRate" "failureRate" metrics.failureRate

/-! ## Risk scorer, src/src/monitoring/anomaly_detection.js -/

/-- The per-type weight table of calculateRiskScore, with the `|| 0.2`
default for unlisted types (all table values nonzero). -/
def riskWeight (t : String) : ℚ :=
  if t = "callVolume" then 3/10
  else if t = "duration" then 1/5
  else if t = "failureRate" then 1/2
  else 1/5

/-- Result of calculateRiskScore (anomalyCount and timestamp omitted). -/
structure RiskAssessment where
  score : JsNum
  level : String
deriving DecidableEq

/-- The risk-level bucketing: < 0.3 low, < 0.7 medium, otherwise high (a
NaN score compares false on both tests and lands in 'high'). -/
def riskLevel (s : JsNum) : String :=
  if jsLtQ s (3/10) then "low"
  else if jsLtQ s (7/10) then "medium"
  else "high"

/-- AnomalyDetectionSystem.calculateRiskScore: empty input short-circuits
to {score:0, level:'low'}; otherwise the deviations are accumulated with
the per-type weights and clamped by Math.min(1, ·). -/
def calculateRiskScore (anomalies : List Anomaly) : RiskAssessment :=
  if anomalies.isEmpty then ⟨.fin 0, "low"⟩
  else
    let totalScore := anomalies.foldl
      (fun acc a => jsAdd acc (jsMul a.deviation (riskWeight a.type))) (.fin 0)
    let normalizedScore := jsMin1 totalScore
    ⟨normalizedScore, riskLevel normalizedScore⟩

/-! ## Call routing framework (orchestrator), src/src/core/lcr.js

The framework ties the components together.  Its collaborators —
STIR/SHAKEN verification, the per-route metric/cost/delay measurements
(random stubs in the source), the analytics sink and the wall clock — are
modelled as explicit inputs for one invocation; the session-encryption
step is pure in the source (it cannot throw on the data involved) and its
opaque ciphertext output is omitted.  Thrown exceptions are Except errors;
the try/catch of processCall increments failedCalls and rethrows. -/

/-- One entry of this.activeCalls (the call-monitoring record). -/
structure CallMonitoring where
  id : String
  startTime : ℚ
  route : String
  metrics : RouteMetrics
  anomalies : List Anomaly
deriving DecidableEq

/-- this.systemMetrics (startTime omitted).  Note the source never
increments totalCalls or successfulCalls; only failedCalls is ever
incremented, in the catch block of processCall. -/
structure SystemMetrics where
  totalCalls : ℕ
  successfulCalls : ℕ
  failedCalls : ℕ
deriving DecidableEq

/-- The mutable state of a CallRoutingFramework instance that the claims
concern: the live call store, the counters, and the anomaly detector's
baseline store. -/
structure FrameworkState where
  activeCalls : List (String × CallMonitoring)
  systemMetrics : SystemMetrics
  baselineMetrics : List (String × Baseline)
deriving DecidableEq

/-- The collaborator outcomes consumed during one framework operation. -/
structure Collaborators where
  verified : Bool
  attestationLevel : String
  errorCode : String
  availableRoutes : List String
  metricsFor : String → RouteMetrics
  costInfoFor : String → RouteCostInfo
  delayFor : String → ℚ
  logResult : Except JsError Unit
  now : ℚ

/-- CallRoutingFramework.calculateAverageDuration: 0 when no call is
active, otherwise the mean of (now − startTime)/1000 over active calls. -/
def calculateAverageDuration (st : FrameworkState) (now : ℚ) : ℚ :=
  if st.activeCalls.isEmpty then 0
  else ((st.activeCalls.map fun c => (now - c.2.startTime) / 1000).sum) /
        st.activeCalls.length

/-- CallRoutingFramework.calculateFailureRate: 0 when totalCalls is 0,
otherwise failedCalls/totalCalls·100. -/
def calculateFailureRate (sm : SystemMetrics) : ℚ :=
  if sm.totalCalls = 0 then 0
  else ((sm.failedCalls : ℚ) / (sm.totalCalls : ℚ)) * 100

/-- The callMetrics object assembled in step 5 of processCall (all three
fields are present; zero values are nonetheless skipped downstream by the
truthiness test in processCallMetrics). -/
def callMetricsOf (st : FrameworkState) (now : ℚ) : CallMetricsInput :=
  ⟨some (st.systemMetrics.totalCalls : ℚ),
   some (calculateAverageDuration st now),
   some (calculateFailureRate st.systemMetrics)⟩

/-- The anomalies computed for the current system metrics in step 5. -/
def anomaliesOf (env : Collaborators) (st : FrameworkState) : List Anomaly :=
  processCallMetrics st.baselineMetrics (callMetricsOf st env.now)

/-- Successful return value of processCall (encryptedChannel omitted). -/
structure ProcessResult where
  callId : String
  route : String
  verificationStatus : String
deriving DecidableEq

/-- The catch block: this.systemMetrics.failedCalls++. -/
def addFailed (st : FrameworkState) : FrameworkState :=
  { st with systemMetrics :=
      { st.systemMetrics with failedCalls := st.systemMetrics.failedCalls + 1 } }

/-- The body of processCall's try block up to and including the
registration of the call-monitoring record (steps 1–6): verification,
route selection, cost evaluation, anomaly/risk gating, then
this.activeCalls.set(id, monitoring).  Returns the result value and the
post-registration state, or the first exception thrown. -/
def processCallCore (env : Collaborators) (st : FrameworkState)
    (callId : String) : Except JsError (ProcessResult × FrameworkState) :=
  if env.verified = false then
    .error (.thrown ("Call verification failed: " ++ env.errorCode))
  else
    match getOptimalRoute env.availableRoutes env.metricsFor with
    | .error e => .error e
    | .ok optimalRoute =>
      match findOptimalRoute [optimalRoute.selectedRoute] env.costInfoFor
          env.delayFor with
      | .error e => .error e
      | .ok _ =>
        if 0 < (anomaliesOf env st).length ∧
            (calculateRiskScore (anomaliesOf env st)).level = "high"
        then .error (.thrown "High-risk call detected")
        else
          .ok (⟨callId, optimalRoute.selectedRoute, env.attestationLevel⟩,
               { st with activeCalls :=
                  (mapSet st.activeCalls callId ⟨callId, env.now,
                    optimalRoute.selectedRoute, optimalRoute.metrics,
                    anomaliesOf env st⟩) })

/-- CallRoutingFramework.processCall: the try body (processCallCore, then
step 7's await analytics.logCall), with the catch block incrementing
failedCalls on the state current at the point of the throw and
rethrowing.  A logging failure therefore strikes after the session was
registered. -/
def processCall (env : Collaborators) (st : FrameworkState) (callId : String) :
    Except JsError ProcessResult × FrameworkState :=
  match processCallCore env st callId with
  | .error e => (.error e, addFailed st)
  | .ok (res, st1) =>
    match env.logResult with
    | .error e => (.error e, addFailed st1)
    | .ok _ => (.ok res, st1)

/-- Return value of endCall. -/
structure EndResult where
  callId : String
  duration : ℚ
  route : String
deriving DecidableEq

/-- CallRoutingFramework.endCall: throws 'Call not found' for an unknown
id; otherwise deletes the session from this.activeCalls and then awaits
analytics.logCall, whose failure propagates uncaught (there is no
try/catch here, so no counter is touched). -/
def endCall (env : Collaborators) (st : FrameworkState) (callId : String) :
    Except JsError EndResult × FrameworkState :=
  match mapGet st.activeCalls callId with
  | none => (.error (.thrown "Call not found"), st)
  | some call =>
    let duration := (env.now - call.startTime) / 1000
    let st1 := { st with activeCalls := mapDelete st.activeCalls callId }
    match env.logResult with
    | .error e => (.error e, st1)
    | .ok _ => (.ok ⟨callId, duration, call.route⟩, st1)

/-- Did an Except succeed? -/
def exOk {ε α : Type} : Except ε α → Bool
  | .ok _ => true
  | .error _ => false

/-- Replace only the analytics-log outcome of a collaborator bundle. -/
def withLog (env : Collaborators) (x : Except JsError Unit) : Collaborators :=
  ⟨env.verified, env.attestationLevel, env.errorCode, env.availableRoutes,
   env.metricsFor, env.costInfoFor, env.delayFor, x, env.now⟩

/-- A fixed in-range metrics record used for concrete evaluations. -/
def testMetrics : RouteMetrics := ⟨50, 1/5, 49/50⟩

/-- The state of a freshly constructed framework: no active calls, zeroed
counters, no baselines. -/
def initialState : FrameworkState := ⟨[], ⟨0, 0, 0⟩, []⟩

/-- A collaborator bundle for one fully successful invocation. -/
def testEnv : Collaborators :=
  ⟨true, "A", "", ["route1"], fun _ => testMetrics, fun _ => ⟨[1], [1]⟩,
   fun _ => 30, .ok (), 1000⟩

/-- The same collaborators except that route discovery now advertises a
different route. -/
def testEnvB : Collaborators :=
  ⟨true, "A", "", ["route2"], fun _ => testMetrics, fun _ => ⟨[1], [1]⟩,
   fun _ => 30, .ok (), 1000⟩

/-- The framework state after one successful processCall of "call-1" on
the initial state under testEnv. -/
def stAfterFirst : FrameworkState :=
  ⟨[("call-1", ⟨"call-1", 1000, "route1", testMetrics, []⟩)], ⟨0, 0, 0⟩, []⟩

end CallRouting

namespace CallRouting

/-- C1: for every route metrics record with latency ≥ 0, load in [0,1] and
reliability in [0,1], calculateRouteWeight returns exactly
0.4·(1 − min(latency,200)/200) + 0.3·(1 − load) + 0.3·reliability, and the
concrete scenario latency=50, load=0.2, reliability=0.98 scores 0.834. -/
theorem C1_route_score_formula (m : RouteMetrics)
    (hlat : 0 ≤ m.latency) (hl0 : 0 ≤ m.load) (hl1 : m.load ≤ 1)
    (hr0 : 0 ≤ m.reliability) (hr1 : m.reliability ≤ 1) :
    calculateRouteWeight m =
      (2/5) * (1 - (min m.latency 200) / 200) + (3/10) * (1 - m.load) +
        (3/10) * m.reliability
    ∧ calculateRouteWeight ⟨50, 1/5, 49/50⟩ = 417/500 := by
  constructor
  · rfl
  · norm_num [calculateRouteWeight, min_def]

/-- Witness for C1 at the spec's concrete scenario. -/
theorem C1_route_score_formula_witness :
    calculateRouteWeight ⟨50, 1/5, 49/50⟩ = 417/500 :=
  (C1_route_score_formula ⟨50, 1/5, 49/50⟩ (by norm_num) (by norm_num)
    (by norm_num) (by norm_num) (by norm_num)).2

/-- C6 counterexample: on the out-of-range input latency = −200, load = 2,
reliability = 2, the scorer does not fail with InvalidMetricError (no such
error exists in the source and the function is total): it silently proceeds
and returns the numeric score 1.1, with the normalised latency escaping
[0,1] (it equals 2). -/
theorem C6_no_validation_counterexample :
    calculateRouteWeight ⟨-200, 2, 2⟩ = 11/10
    ∧ 1 - (min (-200 : ℚ) 200) / 200 = 2 := by
  constructor
  · norm_num [calculateRouteWeight, min_def]
  · norm_num [min_def]

/-- C6 amended: route scoring performs no input validation at all: every
metrics record, in range or not, is scored by the same formula (latency is
clamped from above at 200 only by the min; negative latency drives the
normalised latency above 1, and load/reliability are used as supplied).
No InvalidMetricError is ever raised. -/
theorem C6_no_validation (lat lo re : ℚ) :
    calculateRouteWeight ⟨lat, lo, re⟩ =
      (2/5) * (1 - (min lat 200) / 200) + (3/10) * (1 - lo) + (3/10) * re
    ∧ (lat < 0 → 1 < 1 - (min lat 200) / 200) := by
  refine ⟨rfl, fun hneg => ?_⟩
  have hmin : min lat 200 = lat := min_eq_left (by linarith)
  rw [hmin]
  have : lat / 200 < 0 := div_neg_of_neg_of_pos hneg (by norm_num)
  linarith

/-- Witness for C6 amended at a concrete negative-latency input. -/
theorem C6_no_validation_witness :
    calculateRouteWeight ⟨-200, 2, 2⟩ =
      (2/5) * (1 - (min (-200 : ℚ) 200) / 200) + (3/10) * (1 - 2) + (3/10) * 2
    ∧ (1 : ℚ) < 1 - (min (-200 : ℚ) 200) / 200 :=
  ⟨(C6_no_validation (-200) 2 2).1, (C6_no_validation (-200) 2 2).2 (by norm_num)⟩

/-- C2 counterexample: on the empty candidate set, both selection functions
produce the TypeError crash (indexing element 0 of the empty sorted array),
not an inspectable NoRoutesAvailable error value — no such value exists
anywhere in the source. -/
theorem C2_empty_candidates_counterexample :
    getOptimalRoute [] (fun _ => testMetrics) = .error .typeError
    ∧ findOptimalRoute [] (fun _ => ⟨[1], [1]⟩) (fun _ => 30) =
        .error .typeError := by
  constructor <;> rfl

/-- C2 amended: for the empty candidate set, both the RouteScorer's
getOptimalRoute and the CostEvaluator's findOptimalRoute fail by crashing
with an unhandled TypeError raised when selecting the first element of the
empty sorted result, rather than by returning a NoRoutesAvailable error
value. -/
theorem C2_empty_candidates_crash (metricsFor : String → RouteMetrics)
    (costInfoFor : String → RouteCostInfo) (delayFor : String → ℚ) :
    getOptimalRoute [] metricsFor = .error .typeError
    ∧ findOptimalRoute [] costInfoFor delayFor = .error .typeError := by
  constructor <;> rfl

/-- weightedCost agrees with the spec formula when no supplied weight is 0. -/
theorem weightedCost_eq_spec (cs : List ℚ) :
    ∀ ws : List ℚ, (∀ w ∈ ws, w ≠ 0) → weightedCost cs ws = specWeightedCost cs ws := by
  induction cs with
  | nil => intro ws _; cases ws <;> rfl
  | cons c cs ih =>
    intro ws hw
    cases ws with
    | nil => simp [weightedCost, specWeightedCost, ih [] (by simp)]
    | cons w ws =>
      have hw0 : w ≠ 0 := hw w (by simp)
      simp only [weightedCost, specWeightedCost, if_neg hw0,
        ih ws (fun x hx => hw x (by simp [hx]))]

/-- C5 counterexample: at costs=[5], weights=[0], delay=0 the source
returns 5 (the JS `weights[i] || 1` treats the supplied weight 0 as
falsy and replaces it with 1), while the claim's formula
Σ(w_i·c_i) + 0.2·d gives 0·5 + 0 = 0. -/
theorem C5_zero_weight_counterexample :
    calculateTotalCost ⟨[5], [0]⟩ 0 = 5
    ∧ specTotalCost [5] [0] 0 = 0
    ∧ calculateTotalCost ⟨[5], [0]⟩ 0 ≠ specTotalCost [5] [0] 0 := by
  refine ⟨?_, ?_, ?_⟩ <;> norm_num [calculateTotalCost, specTotalCost,
    weightedCost, specWeightedCost]

/-- C5 amended: the CostEvaluator returns Σ(w_i'·c_i) + 0.2·d where w_i'
is the supplied weight when it is present and nonzero, and 1.0 when the
weight is omitted or equal to 0 (the JS falsy default).  In particular the
claim's formula holds whenever every supplied weight is nonzero, and the
concrete scenario costs=[4,2,1], weights=[0.5,0.3,0.2], delay=40 yields
totalCost 10.8. -/
theorem C5_total_cost (cs ws : List ℚ) (d : ℚ) (hw : ∀ w ∈ ws, w ≠ 0) :
    calculateTotalCost ⟨cs, ws⟩ d = specTotalCost cs ws d
    ∧ calculateTotalCost ⟨[4, 2, 1], [1/2, 3/10, 1/5]⟩ 40 = 54/5
    ∧ ∀ c d' : ℚ, calculateTotalCost ⟨[c], [0]⟩ d' = 1 * c + (1/5) * d' := by
  refine ⟨?_, ?_, ?_⟩
  · unfold calculateTotalCost specTotalCost
    rw [weightedCost_eq_spec cs ws hw]
  · norm_num [calculateTotalCost, weightedCost]
  · intro c d'
    norm_num [calculateTotalCost, weightedCost]

/-- Witness for C5 amended at the spec's concrete scenario. -/
theorem C5_total_cost_witness :
    calculateTotalCost ⟨[4, 2, 1], [1/2, 3/10, 1/5]⟩ 40 =
      specTotalCost [4, 2, 1] [1/2, 3/10, 1/5] 40 :=
  (C5_total_cost [4, 2, 1] [1/2, 3/10, 1/5] 40 (by norm_num)).1

/-- Inserting an element that precedes everything puts it in front. -/
theorem insertSorted_front {α : Type} (before : α → α → Bool) (x : α)
    (l : List α) (h : ∀ y ∈ l, before x y = true) :
    insertSorted before x l = x :: l := by
  cases l with
  | nil => rfl
  | cons y ys => simp [insertSorted, h y (by simp)]

/-- A stable sort leaves a list whose elements are pairwise tied (the
precedence test always true) in input order. -/
theorem stableSort_all_tied {α : Type} (before : α → α → Bool) :
    ∀ l : List α, (∀ a ∈ l, ∀ b ∈ l, before a b = true) →
      stableSort before l = l := by
  intro l
  induction l with
  | nil => intro _; rfl
  | cons x xs ih =>
    intro h
    have hxs : stableSort before xs = xs :=
      ih (fun a ha b hb => h a (by simp [ha]) b (by simp [hb]))
    simp only [stableSort, hxs]
    exact insertSorted_front before x xs
      (fun y hy => h x (by simp) y (by simp [hy]))

/-- C8 counterexample: two candidates with identical metrics (hence equal
scores) keep their supplied order, so the ranking of ["b","a"] differs from
the ranking of ["a","b"] and is not in lexicographic identifier order. -/
theorem C8_tie_order_counterexample :
    rankByWeight ["b", "a"] (fun _ => testMetrics) ≠
      rankByWeight ["a", "b"] (fun _ => testMetrics)
    ∧ (rankByWeight ["b", "a"] (fun _ => testMetrics)).map Prod.fst =
        ["b", "a"] := by
  constructor
  · simp [rankByWeight, stableSort, insertSorted, testMetrics]
  · simp [rankByWeight, stableSort, insertSorted, testMetrics]

/-- C8 amended: route ranking is deterministic for identical inputs
supplied in identical order (both comparators are pure functions of the
scores and the sort is stable), but candidates with equal score keep the
order in which they were supplied — the tie-break is insertion order, not
lexicographic identifier order, so the output ordering does depend on the
order of the input.  Both the weight ranking and the cost ranking behave
this way: on a candidate list whose scores are all equal, the ranking is
the input list itself. -/
theorem C8_tie_break_insertion_order (routes : List String)
    (metricsFor : String → RouteMetrics) (costInfoFor : String → RouteCostInfo)
    (delayFor : String → ℚ) (c k : ℚ)
    (hweq : ∀ r ∈ routes, calculateRouteWeight (metricsFor r) = c)
    (hceq : ∀ r ∈ routes, calculateTotalCost (costInfoFor r) (delayFor r) = k) :
    rankByWeight routes metricsFor = routes.map (fun r => (r, c))
    ∧ rankByCost routes costInfoFor delayFor = routes.map (fun r => (r, k)) := by
  constructor
  · unfold rankByWeight
    rw [List.map_congr_left (fun r hr => by rw [hweq r hr])]
    exact stableSort_all_tied _ _ (by
      intro a ha b hb
      obtain ⟨ra, _, rfl⟩ := List.mem_map.mp ha
      obtain ⟨rb, _, rfl⟩ := List.mem_map.mp hb
      simp)
  · unfold rankByCost
    rw [List.map_congr_left (fun r hr => by rw [hceq r hr])]
    exact stableSort_all_tied _ _ (by
      intro a ha b hb
      obtain ⟨ra, _, rfl⟩ := List.mem_map.mp ha
      obtain ⟨rb, _, rfl⟩ := List.mem_map.mp hb
      simp)

/-- Witness for C8 amended: equal-score candidates supplied as ["b","a"]
are ranked ["b","a"], preserving supply order. -/
theorem C8_tie_break_insertion_order_witness :
    rankByWeight ["b", "a"] (fun _ => testMetrics) =
      (["b", "a"]).map (fun r => (r, calculateRouteWeight testMetrics)) :=
  (C8_tie_break_insertion_order ["b", "a"] (fun _ => testMetrics)
    (fun _ => ⟨[1], [1]⟩) (fun _ => 30) (calculateRouteWeight testMetrics)
    (calculateTotalCost ⟨[1], [1]⟩ 30)
    (fun _ _ => rfl) (fun _ _ => rfl)).1

/-- The risk accumulator on a list of finite deviations is the finite
rational c + Σ deviation·weight. -/
theorem riskFold_fin (f : Anomaly → ℚ) :
    ∀ (l : List Anomaly) (c : ℚ), (∀ a ∈ l, a.deviation = .fin (f a)) →
      l.foldl (fun acc a => jsAdd acc (jsMul a.deviation (riskWeight a.type)))
        (.fin c) =
        .fin (c + (l.map fun a => f a * riskWeight a.type).sum) := by
  intro l
  induction l with
  | nil => intro c _; simp
  | cons a t ih =>
    intro c h
    have ha : a.deviation = .fin (f a) := h a (by simp)
    have hstep : jsAdd (.fin c) (jsMul a.deviation (riskWeight a.type)) =
        .fin (c + f a * riskWeight a.type) := by rw [ha]; rfl
    simp only [List.foldl_cons]
    rw [hstep, ih (c + f a * riskWeight a.type) (fun x hx => h x (by simp [hx])),
      List.map_cons, List.sum_cons]
    congr 1
    ring

/-- C3: the RiskScorer contract: empty anomaly sequence yields
{score: 0, level: low}; a non-empty sequence of anomalies with finite
deviations yields score min(1, Σ deviation·weight) with weights
callVolume 0.3, duration 0.2, failureRate 0.5 and 0.2 for any other type,
with levels low iff score < 0.3, medium iff 0.3 ≤ score < 0.7 and high iff
score ≥ 0.7; the single failureRate anomaly with deviation 0.6 scores 0.3
at level medium. -/
theorem C3_risk_scorer :
    calculateRiskScore [] = ⟨.fin 0, "low"⟩
    ∧ (∀ (l : List Anomaly) (f : Anomaly → ℚ) (S : ℚ), l ≠ [] →
        (∀ a ∈ l, a.deviation = .fin (f a)) →
        S = (l.map fun a => f a * riskWeight a.type).sum →
        (calculateRiskScore l).score = .fin (min 1 S)
        ∧ ((calculateRiskScore l).level = "low" ↔ min 1 S < 3/10)
        ∧ ((calculateRiskScore l).level = "medium" ↔
            3/10 ≤ min 1 S ∧ min 1 S < 7/10)
        ∧ ((calculateRiskScore l).level = "high" ↔ 7/10 ≤ min 1 S))
    ∧ riskWeight "callVolume" = 3/10 ∧ riskWeight "duration" = 1/5
    ∧ riskWeight "failureRate" = 1/2
    ∧ (∀ t, t ≠ "callVolume" → t ≠ "duration" → t ≠ "failureRate" →
        riskWeight t = 1/5)
    ∧ calculateRiskScore [⟨"failureRate", true, .fin (3/5), 1/5, 0, 0⟩] =
        ⟨.fin (3/10), "medium"⟩ := by
  refine ⟨rfl, ?_, rfl, rfl, rfl, ?_, ?_⟩
  · intro l f S hne hdev hS
    have hE : l.isEmpty = false := by cases l with
      | nil => exact absurd rfl hne
      | cons a t => rfl
    have hscore : calculateRiskScore l =
        ⟨.fin (min 1 S), riskLevel (.fin (min 1 S))⟩ := by
      simp only [calculateRiskScore, hE, Bool.false_eq_true, if_false,
        riskFold_fin f l 0 hdev, zero_add, jsMin1, hS]
    rw [hscore]
    refine ⟨rfl, ?_, ?_, ?_⟩
    · by_cases h1 : min 1 S < 3/10
      · simp [riskLevel, jsLtQ, h1]
      · by_cases h2 : min 1 S < 7/10 <;> simp [riskLevel, jsLtQ, h1, h2]
    · by_cases h1 : min 1 S < 3/10
      · rw [riskLevel, if_pos (by simp [jsLtQ, h1])]
        exact iff_of_false (by simp) (fun hc => absurd h1 (not_lt.mpr hc.1))
      · by_cases h2 : min 1 S < 7/10
        · rw [riskLevel, if_neg (by simp [jsLtQ, h1]),
            if_pos (by simp [jsLtQ, h2])]
          exact iff_of_true rfl ⟨not_lt.mp h1, h2⟩
        · rw [riskLevel, if_neg (by simp [jsLtQ, h1]),
            if_neg (by simp [jsLtQ, h2])]
          exact iff_of_false (by simp) (fun hc => absurd hc.2 h2)
    · by_cases h1 : min 1 S < 3/10
      · rw [riskLevel, if_pos (by simp [jsLtQ, h1])]
        exact iff_of_false (by simp)
          (fun hc => absurd (lt_of_le_of_lt hc h1) (by norm_num))
      · by_cases h2 : min 1 S < 7/10
        · rw [riskLevel, if_neg (by simp [jsLtQ, h1]),
            if_pos (by simp [jsLtQ, h2])]
          exact iff_of_false (by simp) (fun hc => absurd h2 (not_lt.mpr hc))
        · rw [riskLevel, if_neg (by simp [jsLtQ, h1]),
            if_neg (by simp [jsLtQ, h2])]
          exact iff_of_true rfl (not_lt.mp h2)
  · intro t h1 h2 h3
    simp [riskWeight, h1, h2, h3]
  · have hw : riskWeight "failureRate" = 1/2 := by simp [riskWeight]
    have hmul : jsMul (.fin (3/5)) (1/2) = .fin (3/10) := by
      simp only [jsMul, JsNum.fin.injEq]
      norm_num
    have hadd : jsAdd (.fin 0) (.fin (3/10)) = .fin (3/10) := by
      simp only [jsAdd, JsNum.fin.injEq]
      norm_num
    have hmin : jsMin1 (.fin (3/10)) = .fin (3/10) := by
      simp only [jsMin1, JsNum.fin.injEq]
      norm_num [min_def]
    have hlev : riskLevel (.fin (3/10)) = "medium" := by
      rw [riskLevel, if_neg (by simp [jsLtQ]), if_pos (by simp [jsLtQ]; norm_num)]
    simp only [calculateRiskScore, List.isEmpty_cons, Bool.false_eq_true,
      if_false, List.foldl_cons, List.foldl_nil, hw, hmul, hadd, hmin, hlev]

/-- Witness for C3 at the spec's concrete scenario (one failureRate
anomaly with deviation 0.6). -/
theorem C3_risk_scorer_witness :
    (calculateRiskScore [⟨"failureRate", true, .fin (3/5), 1/5, 0, 0⟩]).score =
        .fin (min 1 (3/10 : ℚ))
    ∧ ((calculateRiskScore
          [⟨"failureRate", true, .fin (3/5), 1/5, 0, 0⟩]).level = "medium" ↔
        3/10 ≤ min 1 (3/10 : ℚ) ∧ min 1 (3/10 : ℚ) < 7/10) := by
  have h := C3_risk_scorer.2.1 [⟨"failureRate", true, .fin (3/5), 1/5, 0, 0⟩]
    (fun _ => 3/5) (3/10) (by simp)
    (by intro a ha; simp at ha; rw [ha])
    (by simp [riskWeight]; norm_num)
  exact ⟨h.1, h.2.2.1⟩

/-- C9 counterexample: with the stored baseline mean for failureRate equal
to 0, detectAnomaly on the observed value 5 does not fail with
DegenerateBaselineError (no such error exists in the source): it returns a
deviation report whose deviation is the JS Infinity produced by the
division by zero, flagged anomalous. -/
theorem C9_zero_mean_counterexample :
    detectAnomaly [("failureRate", ⟨0, 0⟩)] "failureRate" 5 =
      .report ⟨true, .inf, 1/5, 0, 5⟩ := by
  have h5 : (5 : ℚ) ≠ 0 := by norm_num
  simp [detectAnomaly, mapGet, deviationOf, anomalyThreshold, jsGtQ, h5]

/-- C9 amended: for a stored baseline with mean 0, detectAnomaly still
returns a deviation report — deviation Infinity and isAnomaly true when
the observed value is nonzero, deviation NaN and isAnomaly false when it
is zero — rather than failing with DegenerateBaselineError.  For a nonzero
mean it returns deviation |observed − mean| / mean and flags an anomaly
iff the deviation exceeds the per-metric threshold, which defaults to 0.2
for unlisted metric names. -/
theorem C9_detect (b : List (String × Baseline)) (n : String) (v : ℚ)
    (base : Baseline) (hb : mapGet b n = some base) :
    (base.mean = 0 → v ≠ 0 →
      detectAnomaly b n v = .report ⟨true, .inf, anomalyThreshold n, 0, v⟩)
    ∧ (base.mean = 0 → v = 0 →
      detectAnomaly b n v = .report ⟨false, .nan, anomalyThreshold n, 0, v⟩)
    ∧ (base.mean ≠ 0 →
      detectAnomaly b n v = .report
        ⟨decide (anomalyThreshold n < |v - base.mean| / base.mean),
         .fin (|v - base.mean| / base.mean), anomalyThreshold n, base.mean, v⟩)
    ∧ (n ≠ "callVolume" → n ≠ "duration" → n ≠ "failureRate" →
        n ≠ "latency" → anomalyThreshold n = 1/5) := by
  refine ⟨?_, ?_, ?_, ?_⟩
  · intro hm hv
    simp [detectAnomaly, hb, deviationOf, hm, hv, jsGtQ]
  · intro hm hv
    simp [detectAnomaly, hb, deviationOf, hm, hv, jsGtQ]
  · intro hm
    simp [detectAnomaly, hb, deviationOf, hm, jsGtQ, gt_iff_lt]
  · intro h1 h2 h3 h4
    simp [anomalyThreshold, h1, h2, h3, h4]

/-- Witness for C9 amended at the zero-mean baseline with observed 5. -/
theorem C9_detect_witness :
    detectAnomaly [("failureRate", ⟨0, 0⟩)] "failureRate" 5 =
      .report ⟨true, .inf, anomalyThreshold "failureRate", 0, 5⟩ :=
  (C9_detect [("failureRate", ⟨0, 0⟩)] "failureRate" 5 ⟨0, 0⟩
    (by simp [mapGet])).1 rfl (by norm_num)

/-- Every entry produced by one checkMetric block carries that block's
type tag. -/
theorem checkMetric_type (b : List (String × Baseline)) (n t : String)
    (v : Option ℚ) : ∀ a ∈ checkMetric b n t v, a.type = t := by
  intro a ha
  cases v with
  | none => simp [checkMetric] at ha
  | some q =>
    simp only [checkMetric] at ha
    split at ha
    · simp at ha
    · split at ha
      · simp at ha
      · split at ha
        · simp at ha; rw [ha]
        · simp at ha

/-- A field supplied as 0 is falsy: its check block yields nothing. -/
theorem checkMetric_some_zero (b : List (String × Baseline)) (n t : String) :
    checkMetric b n t (some 0) = [] := rfl

/-- An absent field is skipped. -/
theorem checkMetric_none (b : List (String × Baseline)) (n t : String) :
    checkMetric b n t none = [] := rfl

/-- C10: a metrics field supplied with value 0 is skipped by
processCallMetrics exactly as if it were absent (the JS truthiness test
conflates 0 with undefined), and the returned anomaly list never contains
an entry for the zero-valued metric, whatever the stored baselines are. -/
theorem C10_zero_metric_skipped (b : List (String × Baseline))
    (m : CallMetricsInput) :
    (m.callVolume = some 0 →
      processCallMetrics b m =
        processCallMetrics b ⟨none, m.avgDuration, m.failureRate⟩
      ∧ ∀ a ∈ processCallMetrics b m, a.type ≠ "callVolume")
    ∧ (m.avgDuration = some 0 →
      processCallMetrics b m =
        processCallMetrics b ⟨m.callVolume, none, m.failureRate⟩
      ∧ ∀ a ∈ processCallMetrics b m, a.type ≠ "duration")
    ∧ (m.failureRate = some 0 →
      processCallMetrics b m =
        processCallMetrics b ⟨m.callVolume, m.avgDuration, none⟩
      ∧ ∀ a ∈ processCallMetrics b m, a.type ≠ "failureRate") := by
  obtain ⟨cv, ad, fr⟩ := m
  refine ⟨fun h => ?_, fun h => ?_, fun h => ?_⟩ <;>
    simp only [] at h <;> subst h
  · refine ⟨rfl, ?_⟩
    intro a ha
    simp only [processCallMetrics, checkMetric_some_zero, List.mem_append,
      List.not_mem_nil, false_or, or_false] at ha
    rcases ha with ha | ha
    · rw [checkMetric_type b "duration" "duration" ad a ha]; simp
    · rw [checkMetric_type b "failureRate" "failureRate" fr a ha]; simp
  · refine ⟨rfl, ?_⟩
    intro a ha
    simp only [processCallMetrics, checkMetric_some_zero, List.mem_append,
      List.not_mem_nil, false_or, or_false] at ha
    rcases ha with ha | ha
    · rw [checkMetric_type b "callVolume" "callVolume" cv a ha]; simp
    · rw [checkMetric_type b "failureRate" "failureRate" fr a ha]; simp
  · refine ⟨rfl, ?_⟩
    intro a ha
    simp only [processCallMetrics, checkMetric_some_zero, List.mem_append,
      List.not_mem_nil, false_or, or_false] at ha
    rcases ha with ha | ha
    · rw [checkMetric_type b "callVolume" "callVolume" cv a ha]; simp
    · rw [checkMetric_type b "duration" "duration" ad a ha]; simp

/-- Witness for C10 with callVolume supplied as 0. -/
theorem C10_zero_metric_skipped_witness :
    processCallMetrics [] ⟨some 0, none, none⟩ =
      processCallMetrics [] ⟨none, none, none⟩ :=
  ((C10_zero_metric_skipped [] ⟨some 0, none, none⟩).1 rfl).1

/-- Setting a key makes it retrievable with the new value. -/
theorem mapGet_mapSet_self {β : Type} (l : List (String × β)) (k : String)
    (v : β) : mapGet (mapSet l k v) k = some v := by
  induction l with
  | nil => simp [mapSet, mapGet]
  | cons p t ih =>
    obtain ⟨k1, w⟩ := p
    by_cases h : k1 = k
    · subst h; simp [mapSet, mapGet]
    · simp [mapSet, mapGet, h, ih]

/-- Keys after a set are among the old keys and the set key. -/
theorem mem_keys_mapSet {β : Type} (l : List (String × β)) (k a : String)
    (v : β) (ha : a ∈ (mapSet l k v).map Prod.fst) :
    a ∈ l.map Prod.fst ∨ a = k := by
  induction l with
  | nil =>
    simp only [mapSet, List.map_cons, List.map_nil, List.mem_cons,
      List.not_mem_nil, or_false] at ha
    exact Or.inr ha
  | cons p t ih =>
    obtain ⟨k1, w⟩ := p
    by_cases h : k1 = k
    · subst h
      rw [mapSet, if_pos rfl] at ha
      simp only [List.map_cons, List.mem_cons] at ha ⊢
      tauto
    · rw [mapSet, if_neg h] at ha
      simp only [List.map_cons, List.mem_cons] at ha ⊢
      rcases ha with ha1 | ha1
      · exact Or.inl (Or.inl ha1)
      · rcases ih ha1 with hb | hb
        · exact Or.inl (Or.inr hb)
        · exact Or.inr hb

/-- Map.set preserves key uniqueness. -/
theorem keysNodup_mapSet {β : Type} (l : List (String × β)) (k : String)
    (v : β) (h : keysNodup l) : keysNodup (mapSet l k v) := by
  induction l with
  | nil => simp [mapSet, keysNodup]
  | cons p t ih =>
    obtain ⟨k1, w⟩ := p
    rw [keysNodup, List.map_cons, List.nodup_cons] at h
    by_cases hk : k1 = k
    · subst hk
      rw [mapSet, if_pos rfl, keysNodup, List.map_cons, List.nodup_cons]
      exact h
    · rw [mapSet, if_neg hk, keysNodup, List.map_cons, List.nodup_cons]
      refine ⟨fun hmem => ?_, ih h.2⟩
      rcases mem_keys_mapSet t k k1 v hmem with hb | hb
      · exact h.1 hb
      · exact hk hb

/-- Keys after a delete are among the old keys. -/
theorem mem_keys_mapDelete {β : Type} (l : List (String × β)) (k a : String)
    (ha : a ∈ (mapDelete l k).map Prod.fst) : a ∈ l.map Prod.fst := by
  induction l with
  | nil => simp [mapDelete] at ha
  | cons p t ih =>
    obtain ⟨k1, w⟩ := p
    by_cases h : k1 = k
    · subst h
      rw [mapDelete, if_pos rfl] at ha
      simp only [List.map_cons, List.mem_cons]
      right; exact ha
    · rw [mapDelete, if_neg h] at ha
      simp only [List.map_cons, List.mem_cons] at ha ⊢
      rcases ha with ha | ha
      · left; exact ha
      · right; exact ih ha

/-- Map.delete preserves key uniqueness. -/
theorem keysNodup_mapDelete {β : Type} (l : List (String × β)) (k : String)
    (h : keysNodup l) : keysNodup (mapDelete l k) := by
  induction l with
  | nil => simp [mapDelete, keysNodup]
  | cons p t ih =>
    obtain ⟨k1, w⟩ := p
    rw [keysNodup, List.map_cons, List.nodup_cons] at h
    by_cases hk : k1 = k
    · rw [mapDelete, if_pos hk]; exact h.2
    · rw [mapDelete, if_neg hk, keysNodup, List.map_cons, List.nodup_cons]
      exact ⟨fun hmem => h.1 (mem_keys_mapDelete t k k1 hmem), ih h.2⟩

/-- A key absent from the key list is not retrievable. -/
theorem mapGet_eq_none {β : Type} (l : List (String × β)) (k : String)
    (h : k ∉ l.map Prod.fst) : mapGet l k = none := by
  induction l with
  | nil => rfl
  | cons p t ih =>
    obtain ⟨k1, w⟩ := p
    simp only [List.map_cons, List.mem_cons, not_or] at h
    rw [mapGet, if_neg (fun he => h.1 he.symm)]
    exact ih h.2

/-- Under unique keys, a deleted key is gone. -/
theorem mapGet_mapDelete_self {β : Type} (l : List (String × β)) (k : String)
    (h : keysNodup l) : mapGet (mapDelete l k) k = none := by
  induction l with
  | nil => rfl
  | cons p t ih =>
    obtain ⟨k1, w⟩ := p
    rw [keysNodup, List.map_cons, List.nodup_cons] at h
    by_cases hk : k1 = k
    · subst hk
      rw [mapDelete, if_pos rfl]
      exact mapGet_eq_none t k1 h.1
    · rw [mapDelete, if_neg hk, mapGet, if_neg hk]
      exact ih h.2

/-- getOptimalRoute reports the metrics of the route it selects. -/
theorem getOptimalRoute_ok (routes : List String)
    (mf : String → RouteMetrics) (sel : SelectedRoute)
    (h : getOptimalRoute routes mf = .ok sel) :
    sel.metrics = mf sel.selectedRoute := by
  unfold getOptimalRoute at h
  split at h
  · exact Except.noConfusion h
  · injection h with h
    rw [← h]

/-- What a successful processCallCore run did to the state: it registered
the freshly built monitoring record under the call id (overwriting any
previous entry) and touched neither the counters nor the baselines. -/
theorem processCallCore_ok (env : Collaborators) (st : FrameworkState)
    (id : String) (res : ProcessResult) (st1 : FrameworkState)
    (h : processCallCore env st id = .ok (res, st1)) :
    st1.activeCalls = mapSet st.activeCalls id
      ⟨id, env.now, res.route, env.metricsFor res.route, anomaliesOf env st⟩
    ∧ st1.systemMetrics = st.systemMetrics
    ∧ st1.baselineMetrics = st.baselineMetrics
    ∧ res.callId = id := by
  unfold processCallCore at h
  split at h
  · exact Except.noConfusion h
  · split at h
    · exact Except.noConfusion h
    · rename_i optimalRoute hopt
      split at h
      · exact Except.noConfusion h
      · split at h
        · exact Except.noConfusion h
        · injection h with h
          injection h with h1 h2
          have hm := getOptimalRoute_ok env.availableRoutes env.metricsFor
            optimalRoute hopt
          subst h2
          rw [← h1]
          exact ⟨by simp [hm], rfl, rfl, rfl⟩

/-- processCallCore never reads the analytics-log outcome. -/
theorem processCallCore_withLog (env : Collaborators)
    (x : Except JsError Unit) (st : FrameworkState) (id : String) :
    processCallCore (withLog env x) st id = processCallCore env st id := rfl

/-- withLog replaces exactly the log outcome. -/
theorem withLog_logResult (env : Collaborators) (x : Except JsError Unit) :
    (withLog env x).logResult = x := rfl

/-- Evaluation of the first call: a fully successful processCall on the
fresh state registers the session. -/
theorem processCall_first :
    processCall testEnv initialState "call-1" =
      (.ok ⟨"call-1", "route1", "A"⟩, stAfterFirst) := rfl

/-- The average-duration metric of the second call is 0 (one active call
started at the same clock reading). -/
theorem avgDuration_after_first :
    calculateAverageDuration stAfterFirst 1000 = 0 := by
  unfold calculateAverageDuration stAfterFirst
  norm_num

/-- No anomalies are flagged for the second call (no baselines, and all
three metric fields are zero and hence skipped). -/
theorem anomalies_second :
    anomaliesOf testEnvB stAfterFirst = [] := by
  unfold anomaliesOf callMetricsOf
  have hfr : calculateFailureRate stAfterFirst.systemMetrics = 0 := rfl
  have hnow : testEnvB.now = 1000 := rfl
  rw [hnow, avgDuration_after_first, hfr]
  have hcv : stAfterFirst.systemMetrics.totalCalls = 0 := rfl
  rw [hcv, Nat.cast_zero]
  simp [processCallMetrics, checkMetric_some_zero]

/-- Evaluation of the second call with the same callId: it succeeds and
replaces the stored session. -/
theorem processCall_second :
    processCall testEnvB stAfterFirst "call-1" =
      (.ok ⟨"call-1", "route2", "A"⟩,
       ⟨[("call-1", ⟨"call-1", 1000, "route2", testMetrics, []⟩)],
        ⟨0, 0, 0⟩, []⟩) := by
  unfold processCall processCallCore
  rw [anomalies_second]
  simp [testEnvB, stAfterFirst, getOptimalRoute, rankByWeight, stableSort,
    insertSorted, findOptimalRoute, rankByCost, mapSet]

/-- C4 counterexample: starting "call-1" twice in a row, both calls
succeed — the second is not rejected with DuplicateCallError (no such
error exists in the source) — and the second run replaces the live
session stored for "call-1" (its route changes), so the existing session
is not left unchanged. -/
theorem C4_duplicate_id_counterexample :
    exOk (processCall testEnvB
        (processCall testEnv initialState "call-1").2 "call-1").1 = true
    ∧ mapGet (processCall testEnvB
          (processCall testEnv initialState "call-1").2 "call-1").2.activeCalls
        "call-1" ≠
      mapGet (processCall testEnv initialState "call-1").2.activeCalls
        "call-1" := by
  have h1 : (processCall testEnv initialState "call-1").2 = stAfterFirst := by
    rw [processCall_first]
  rw [h1, processCall_second]
  constructor
  · rfl
  · simp [mapGet, stAfterFirst]

/-- C4 amended: the live call store is a keyed map, so at most one live
session exists per callId (processCall and endCall preserve key
uniqueness), and a completed endCall removes the id from the store,
freeing it.  But starting a call whose callId already has a live session
does not fail with DuplicateCallError: when the pipeline succeeds,
processCall stores the freshly built session under the id, overwriting
whatever session was there. -/
theorem C4_session_store (env : Collaborators) (st : FrameworkState)
    (id : String) (hnd : keysNodup st.activeCalls) :
    keysNodup (processCall env st id).2.activeCalls
    ∧ keysNodup (endCall env st id).2.activeCalls
    ∧ (exOk (endCall env st id).1 = true →
        mapGet (endCall env st id).2.activeCalls id = none)
    ∧ (∀ res, (processCall env st id).1 = .ok res →
        (processCall env st id).2.activeCalls =
          mapSet st.activeCalls id
            ⟨id, env.now, res.route, env.metricsFor res.route,
             anomaliesOf env st⟩) := by
  refine ⟨?_, ?_, ?_, ?_⟩
  · rcases hcore : processCallCore env st id with e | rp
    · simp only [processCall, hcore, addFailed]
      exact hnd
    · obtain ⟨res0, st1⟩ := rp
      have h1 := (processCallCore_ok env st id res0 st1 hcore).1
      rcases hlog : env.logResult with e2 | u <;>
        simp only [processCall, hcore, hlog, addFailed] <;>
        rw [h1] <;>
        exact keysNodup_mapSet _ _ _ hnd
  · rcases hget : mapGet st.activeCalls id with _ | call
    · simp only [endCall, hget]
      exact hnd
    · rcases hlog : env.logResult with e2 | u <;>
        simp only [endCall, hget, hlog] <;>
        exact keysNodup_mapDelete _ _ hnd
  · rcases hget : mapGet st.activeCalls id with _ | call
    · intro hk
      simp only [endCall, hget, exOk] at hk
      exact Bool.noConfusion hk
    · rcases hlog : env.logResult with e2 | u
      · intro hk
        simp only [endCall, hget, hlog, exOk] at hk
        exact Bool.noConfusion hk
      · intro _
        simp only [endCall, hget, hlog]
        exact mapGet_mapDelete_self _ _ hnd
  · intro res hres
    rcases hcore : processCallCore env st id with e | rp
    · simp only [processCall, hcore] at hres
      exact Except.noConfusion hres
    · obtain ⟨res0, st1⟩ := rp
      rcases hlog : env.logResult with e2 | u
      · simp only [processCall, hcore, hlog] at hres
        exact Except.noConfusion hres
      · simp only [processCall, hcore, hlog] at hres
        injection hres with hres
        subst hres
        simp only [processCall, hcore, hlog]
        exact (processCallCore_ok env st id res0 st1 hcore).1

/-- Witness for C4 amended on the fresh state. -/
theorem C4_session_store_witness :
    keysNodup (processCall testEnv initialState "call-1").2.activeCalls :=
  (C4_session_store testEnv initialState "call-1"
    (by simp [initialState, keysNodup])).1

/-- C7 counterexample: when the analytics sink fails, processCall
propagates that very failure to its caller and increments the failure
counter (the catch block runs on a logging exception too). -/
theorem C7_log_failure_counterexample :
    (processCall (withLog testEnv (.error (.thrown "log sink down")))
        initialState "call-1").1 = .error (.thrown "log sink down")
    ∧ (processCall (withLog testEnv (.error (.thrown "log sink down")))
        initialState "call-1").2.systemMetrics.failedCalls = 1 := by
  constructor <;> rfl

/-- C7 amended: a failure of the analytics logCall collaborator does
propagate: in processCall, whenever the run would otherwise succeed, the
logging error is rethrown to the caller and failedCalls is incremented on
its account (the session registration performed before the logging step is
kept either way); in endCall the logging error likewise propagates, the
session removal having already happened. -/
theorem C7_log_failure_propagates (env : Collaborators) (st : FrameworkState)
    (id : String) (e : JsError) :
    (∀ res, (processCall (withLog env (.ok ())) st id).1 = .ok res →
      (processCall (withLog env (.error e)) st id).1 = .error e
      ∧ (processCall (withLog env (.error e)) st id).2.activeCalls =
          (processCall (withLog env (.ok ())) st id).2.activeCalls
      ∧ (processCall (withLog env (.error e)) st id).2.systemMetrics.failedCalls
          = st.systemMetrics.failedCalls + 1)
    ∧ (∀ r2, (endCall (withLog env (.ok ())) st id).1 = .ok r2 →
        (endCall (withLog env (.error e)) st id).1 = .error e
        ∧ (endCall (withLog env (.error e)) st id).2 =
            (endCall (withLog env (.ok ())) st id).2) := by
  constructor
  · intro res hres
    rcases hcore : processCallCore env st id with e0 | rp
    · simp only [processCall, processCallCore_withLog, withLog_logResult,
        hcore] at hres
      exact Except.noConfusion hres
    · obtain ⟨res0, st1⟩ := rp
      have hok := processCallCore_ok env st id res0 st1 hcore
      simp only [processCall, processCallCore_withLog, withLog_logResult, hcore]
      refine ⟨trivial, ?_, ?_⟩
      · simp [addFailed]
      · simp [addFailed, hok.2.1]
  · intro r2 hr
    rcases hget : mapGet st.activeCalls id with _ | call
    · simp only [endCall, withLog_logResult, hget] at hr
      exact Except.noConfusion hr
    · simp only [endCall, withLog_logResult, hget]
      exact ⟨trivial, trivial⟩

/-- Witness for C7 amended on the concrete successful run. -/
theorem C7_log_failure_propagates_witness :
    (processCall (withLog testEnv (.error (.thrown "down")))
        initialState "call-1").1 = .error (.thrown "down") :=
  ((C7_log_failure_propagates testEnv initialState "call-1"
      (.thrown "down")).1 ⟨"call-1", "route1", "A"⟩ rfl).1

end CallRouting
